import Mathlib

/-!
Verification of the HLTV match-report extraction engine (`src/scraper.py`).

The development shallowly embeds the relevant parts of `scraper.py`:

* a document model `Node` for parsed HTML trees, with the BeautifulSoup
  query primitives the scraper uses (`find` / `find_all` by tag and class,
  `.text`, `.string`, `.get("class", [])`);
* Python string helpers (`strip`, `split("\n")`, `lower`, `lstrip("* ")`,
  substring containment, the veto fallback pattern search);
* `parse_match_details` (lines 49-159) as a total Lean function returning
  `Except String MatchData` — a `.error` value models a raised Python
  exception, `.ok` a normal return;
* the merge loop of `update_results_json` (lines 193-201) over persisted
  records.

Theorems `C1`..`C10` settle the frozen claims about this code.
-/

/-! ## Python string primitives -/

/-- Whitespace as recognised by Python `str.strip` / `\s` (ASCII part). -/
def pyIsSpace (c : Char) : Bool :=
  c == ' ' || c == '\t' || c == '\n' || c == '\r' || c == '\x0b' || c == '\x0c'

/-- Python `str.strip` on the underlying character list. -/
def pyStripL (l : List Char) : List Char :=
  ((l.dropWhile pyIsSpace).reverse.dropWhile pyIsSpace).reverse

/-- Python `s.strip()`. -/
def pyStrip (s : String) : String :=
  ⟨pyStripL s.data⟩

/-- Python split on a newline, over character lists: `[] ↦ [[]]`. -/
def splitLinesL : List Char → List (List Char)
  | [] => [[]]
  | c :: rest =>
    let r := splitLinesL rest
    if c == '\n' then [] :: r
    else
      match r with
      | h :: t => (c :: h) :: t
      | [] => [[c]]

/-- Python `s.split("\n")`. -/
def pySplitNewline (s : String) : List String :=
  (splitLinesL s.data).map (⟨·⟩)

/-- Python `s.lower()` (ASCII). -/
def pyLower (s : String) : String :=
  ⟨s.data.map Char.toLower⟩

/-- Boolean list-prefix test. -/
def isPrefixOfB : List Char → List Char → Bool
  | [], _ => true
  | _ :: _, [] => false
  | a :: as, b :: bs => a == b && isPrefixOfB as bs

/-- Does `needle` occur as a contiguous run inside `hay`? -/
def infixCheck (needle : List Char) : List Char → Bool
  | [] => isPrefixOfB needle []
  | l@(_ :: t) => isPrefixOfB needle l || infixCheck needle t

/-- Python `needle in hay` for strings. -/
def pyContains (hay needle : String) : Bool :=
  infixCheck needle.data hay.data

/-- Python `s.lstrip("* ")`: drop leading `*` and space characters. -/
def pyLstripStarSpace (s : String) : String :=
  ⟨s.data.dropWhile (fun c => c == '*' || c == ' ')⟩

/-- Python truthiness of a string: non-empty. -/
def strNonEmpty (s : String) : Bool :=
  match s.data with
  | [] => false
  | _ :: _ => true

/-! ## Document model

`Node` models a parsed HTML tree as BeautifulSoup exposes it to
`parse_match_details`: element nodes carry a tag name and the raw `class`
attribute value (absent or a string), text nodes carry the string. -/

inductive Node where
  | text (s : String)
  | elem (tag : String) (classAttr : Option String) (children : List Node)

mutual
/-- BeautifulSoup `.text` / `get_text()`: concatenation of every string in
the subtree, in document order. -/
def Node.textContent : Node → String
  | .text s => s
  | .elem _ _ cs => textContentList cs
def textContentList : List Node → String
  | [] => ""
  | n :: ns => n.textContent ++ textContentList ns
end

mutual
/-- All descendants of a node in document (pre-)order, excluding the node
itself; the traversal order `find` / `find_all` use. -/
def Node.descendants : Node → List Node
  | .text _ => []
  | .elem _ _ cs => descendantsList cs
def descendantsList : List Node → List Node
  | [] => []
  | n :: ns => n :: n.descendants ++ descendantsList ns
end

/-- BeautifulSoup `.string`: the unique string of a node, descending through
chains of single children; `none` when a node has zero or several children. -/
def Node.stringOf : Node → Option String
  | .text s => some s
  | .elem _ _ [c] => c.stringOf
  | .elem _ _ [] => none
  | .elem _ _ (_ :: _ :: _) => none

/-- Split the raw `class` attribute value into class names (whitespace
separated, empties dropped), as BeautifulSoup multi-valued attributes do. -/
def splitWSAux (acc : List Char) : List Char → List (List Char)
  | [] => if acc.isEmpty then [] else [acc.reverse]
  | c :: rest =>
    if pyIsSpace c then
      if acc.isEmpty then splitWSAux [] rest
      else acc.reverse :: splitWSAux [] rest
    else splitWSAux (c :: acc) rest

/-- Class names of a raw `class` attribute value. -/
def classNames (attr : String) : List String :=
  (splitWSAux [] attr.data).map (⟨·⟩)

/-- BeautifulSoup `tag.get("class", [])`: the parsed class list, `[]` when absent. -/
def Node.classList : Node → List String
  | .text _ => []
  | .elem _ none _ => []
  | .elem _ (some a) _ => classNames a

/-- Join class names with single spaces (the joined-value match of BeautifulSoup). -/
def joinSpace : List String → String
  | [] => ""
  | s :: rest =>
    match rest with
    | [] => s
    | _ :: _ => s ++ " " ++ joinSpace rest

/-- BeautifulSoup matching of a `class_` string query against a `class`
attribute: match any single class name, or the space-joined full value. -/
def classQueryMatches (q : String) (attr : String) : Bool :=
  let names := classNames attr
  names.any (fun c => decide (c = q)) || decide (joinSpace names = q)

/-- Does a node match `find(tag, class_=q)`? (Text nodes never match; a
class query requires the attribute to be present.) -/
def Node.matchesQuery (tag : String) (q : Option String) : Node → Bool
  | .text _ => false
  | .elem t ca _ =>
    decide (t = tag) &&
      match q with
      | none => true
      | some qs =>
        match ca with
        | none => false
        | some a => classQueryMatches qs a

/-- BeautifulSoup `find_all(tag, class_=q)`: all matching descendants in
document order. -/
def Node.findAllQ (n : Node) (tag : String) (q : Option String) : List Node :=
  n.descendants.filter (Node.matchesQuery tag q)

/-- BeautifulSoup `find(tag, class_=q)`: the first matching descendant. -/
def Node.findQ (n : Node) (tag : String) (q : Option String) : Option Node :=
  n.descendants.find? (Node.matchesQuery tag q)

/-! ## The veto fallback pattern

`re.search(r"\d+\.\s*(?:removed|picked|was left over)", s, re.I)`
(line 91).  Case-insensitivity is modelled by lowering the subject first. -/

/-- Does the veto pattern match at the head of this (lowered) character
list: digits, a dot, optional whitespace, then one of the keywords? -/
def vetoMatchFrom (l : List Char) : Bool :=
  let ds := l.takeWhile Char.isDigit
  if ds.isEmpty then false
  else
    match l.drop ds.length with
    | '.' :: rest =>
      let r := rest.dropWhile pyIsSpace
      isPrefixOfB "removed".data r || isPrefixOfB "picked".data r ||
        isPrefixOfB "was left over".data r
    | _ => false

/-- Python `re.search` of the veto pattern anywhere in `s`, case-insensitive. -/
def vetoPatternSearch (s : String) : Bool :=
  ((pyLower s).data.tails).any vetoMatchFrom

/-! ## Data model (the dictionaries `parse_match_details` builds) -/

/-- One per-team entry of a map result (lines 132-141). -/
structure TeamMapResult where
  name : String
  score : String
  status : String
deriving DecidableEq, Repr

/-- One `map_data` dictionary (lines 102-154). -/
structure MapResult where
  map : String
  team1 : TeamMapResult
  team2 : TeamMapResult
  half_scores : String
  status : String
deriving DecidableEq, Repr

/-- The `match_data` dictionary (line 50). -/
structure MatchData where
  url : String
  format : String
  stage : String
  veto : List String
  maps : List MapResult
deriving DecidableEq, Repr

/-- The empty record built at line 50. -/
def emptyMatch (url : String) : MatchData :=
  { url := url, format := "", stage := "", veto := [], maps := [] }

/-! ## Format / stage extraction (lines 62-72) -/

/-- Lines 65-67: the first `div.padding.preformatted-text` descendant of a
veto-box, split into non-empty stripped lines; `none` when the box has no
such descendant. -/
def boxLines (box : Node) : Option (List String) :=
  match box.findQ "div" (some "padding preformatted-text") with
  | none => none
  | some ft => some (((pySplitNewline ft.textContent).map pyStrip).filter strNonEmpty)

/-- Line 70: `lines[1].lstrip("* ").strip()`. -/
def stageFromLines (lines : List String) : String :=
  pyStrip (pyLstripStarSpace (lines.getD 1 ""))

/-- One iteration of the loop at lines 64-72: a populated box overwrites
`format` (and `stage` when it has a second line). -/
def formatStageStep (fs : String × String) (box : Node) : String × String :=
  match boxLines box with
  | none => fs
  | some lines =>
    (lines.headD "", if lines.length > 1 then stageFromLines lines else fs.2)

/-- The whole loop at lines 64-72, starting from the empty strings of
line 50. -/
def formatStageOfBoxes (boxes : List Node) : String × String :=
  boxes.foldl formatStageStep ("", "")

/-! ## Veto extraction (lines 74-96) -/

/-- Line 80: does the lowered text contain a veto keyword? -/
def hasVetoKeyword (s : String) : Bool :=
  pyContains s "removed" || pyContains s "picked" || pyContains s "was left over"

/-- Lines 77-85 for one box: its first `div.padding` descendant, when its
lowered text holds a keyword, yields the stripped non-empty texts of all
its descendant `div`s; otherwise the box does not qualify. -/
def boxVeto (box : Node) : Option (List String) :=
  match box.findQ "div" (some "padding") with
  | none => none
  | some vd =>
    if hasVetoKeyword (pyLower vd.textContent) then
      some (((vd.findAllQ "div" none).map (fun s => pyStrip s.textContent)).filter strNonEmpty)
    else none

/-- Lines 89-96: `find_all("div", string=regex)` over the whole section,
stripped, empties dropped. -/
def fallbackVeto (sec : Node) : List String :=
  let steps := sec.descendants.filter (fun n =>
    n.matchesQuery "div" none &&
      match n.stringOf with
      | some s => vetoPatternSearch s
      | none => false)
  (steps.map (fun s => pyStrip s.textContent)).filter strNonEmpty

/-- Line 62: `maps_section.find_all("div", class_="standard-box veto-box")`. -/
def formatBoxesOf (sec : Node) : List Node :=
  sec.findAllQ "div" (some "standard-box veto-box")

/-- Lines 74-96: the veto of a section — the steps of the first qualifying box,
else the fallback scan. -/
def vetoOfSection (sec : Node) : List String :=
  match (formatBoxesOf sec).findSome? boxVeto with
  | some v => v
  | none => fallbackVeto sec

/-! ## Map results (lines 98-157) -/

/-- Python `x.find(...).text.strip()` where the `find` result may be `None`
(lines 112-113, 118-119 inner part): Python raises `AttributeError` on a
missing child. -/
def optTextStrip : Option Node → Except String String
  | none => .error "AttributeError: NoneType object has no attribute text"
  | some n => .ok (pyStrip n.textContent)

/-- Lines 111-114 / 117-120 for one side: when the side node is absent the
name and score guards yield `""` but the unguarded `team.get("class", [])`
of the status line raises; when present, a missing name or score child
raises inside `.text`. -/
def teamFields (team : Option Node) : Except String (String × String × String) :=
  match team with
  | none => .error "AttributeError: NoneType object has no attribute get"
  | some t =>
    match optTextStrip (t.findQ "div" (some "results-teamname")) with
    | .error e => .error e
    | .ok name =>
      match optTextStrip (t.findQ "div" (some "results-team-score")) with
      | .error e => .error e
      | .ok score =>
        .ok (name, score,
          if (t.classList).any (fun c => decide (c = "won")) then "won" else "lost")

/-- Lines 101-157 for one map holder: `none` when the holder lacks a
`div.results` (the holder is skipped, line 156), otherwise the assembled
`map_data`; `.error` models a raised `AttributeError`. -/
def parseMapHolder (mh : Node) : Except String (Option MapResult) :=
  let mapName :=
    match mh.findQ "div" (some "mapname") with
    | some d => pyStrip d.textContent
    | none => "Unknown"
  match mh.findQ "div" (some "results") with
  | none => .ok none
  | some results =>
    match teamFields (results.findQ "div" (some "results-left")) with
    | .error e => .error e
    | .ok (t1name, t1score, t1statusRaw) =>
      match teamFields (results.findQ "span" (some "results-right")) with
      | .error e => .error e
      | .ok (t2name, t2score, t2statusRaw) =>
        let half :=
          match results.findQ "div" (some "results-center-half-score") with
          | some h => pyStrip h.textContent
          | none => ""
        let notPlayed := t1score = "-" ∧ t2score = "-" ∧ half = ""
        let t1status := if notPlayed then "not_played" else t1statusRaw
        let t2status := if notPlayed then "not_played" else t2statusRaw
        .ok (some
          { map := mapName
            team1 := { name := t1name, score := t1score, status := t1status }
            team2 := { name := t2name, score := t2score, status := t2status }
            half_scores := half
            status := if strNonEmpty half then "played" else "not_played" })

/-- The loop at lines 101-157 over all map holders; the first raise aborts
the whole extraction, skipped holders emit nothing. -/
def parseMaps : List Node → Except String (List MapResult)
  | [] => .ok []
  | mh :: rest =>
    match parseMapHolder mh with
    | .error e => .error e
    | .ok none => parseMaps rest
    | .ok (some m) =>
      match parseMaps rest with
      | .error e => .error e
      | .ok ms => .ok (m :: ms)

/-- The function `parse_match_details(soup, url)` (lines 49-159). `.error` models a
raised exception, `.ok` the returned `match_data`. -/
def parse_match_details (soup : Node) (url : String) : Except String MatchData :=
  match soup.findQ "div" (some "col-6 col-7-small") with
  | none => .ok (emptyMatch url)
  | some sec =>
    let fs := formatStageOfBoxes (formatBoxesOf sec)
    match parseMaps (sec.findAllQ "div" (some "mapholder")) with
    | .error e => .error e
    | .ok maps =>
      .ok { url := url, format := fs.1, stage := fs.2,
            veto := vetoOfSection sec, maps := maps }

/-! ## The merge step of `update_results_json` (lines 193-201) -/

/-- One persisted record: the `url` key, the four fields the merge loop
replaces, and every other persisted field (preserved verbatim). -/
structure StoredMatch where
  url : String
  format : String
  stage : String
  veto : List String
  maps : List MapResult
  extra : List (String × String)
deriving DecidableEq, Repr

/-- Lines 194-201 for one record: when the url of the record has a fresh
extraction, `match.update({...})` replaces exactly the four fields. -/
def applyScraped (scraped : List (String × MatchData)) (m : StoredMatch) : StoredMatch :=
  match scraped.lookup m.url with
  | none => m
  | some d => { m with format := d.format, stage := d.stage, veto := d.veto, maps := d.maps }

/-- The merge loop at lines 193-201 over the whole persisted collection. -/
def update_results_merge (scraped : List (String × MatchData))
    (results_data : List StoredMatch) : List StoredMatch :=
  results_data.map (applyScraped scraped)

deriving instance DecidableEq for Except

/-! ## Concrete documents and records used by witnesses and counterexamples -/

/-- A veto-box holding only the format/stage preformatted text. -/
def exBox1 : Node :=
  .elem "div" (some "standard-box veto-box")
    [.elem "div" (some "padding preformatted-text") [.text "Best of 3\n* Group Stage"]]

/-- The padding fragment of the veto box listing three veto steps. -/
def exVetoPad : Node :=
  .elem "div" (some "padding")
    [.elem "div" none [.text "1. NaVi removed Dust2"],
     .elem "div" none [.text "2. G2 removed Train"],
     .elem "div" none [.text "3. Overpass was left over"]]

/-- A veto-box holding the veto step list. -/
def exBox2 : Node :=
  .elem "div" (some "standard-box veto-box") [exVetoPad]

/-- A played map: scores 16-9, half-score text present, left side won. -/
def exMh1 : Node :=
  .elem "div" (some "mapholder")
    [.elem "div" (some "mapname") [.text "Inferno"],
     .elem "div" (some "results")
       [.elem "div" (some "results-left won")
          [.elem "div" (some "results-teamname") [.text "NaVi"],
           .elem "div" (some "results-team-score") [.text "16"]],
        .elem "span" (some "results-right")
          [.elem "div" (some "results-teamname") [.text "G2"],
           .elem "div" (some "results-team-score") [.text "9"]],
        .elem "div" (some "results-center-half-score") [.text "8-7;8-2"]]]

/-- A map with final scores and a won marker but no half-score fragment. -/
def exMh2 : Node :=
  .elem "div" (some "mapholder")
    [.elem "div" (some "mapname") [.text "Mirage"],
     .elem "div" (some "results")
       [.elem "div" (some "results-left")
          [.elem "div" (some "results-teamname") [.text "NaVi"],
           .elem "div" (some "results-team-score") [.text "13"]],
        .elem "span" (some "results-right won")
          [.elem "div" (some "results-teamname") [.text "G2"],
           .elem "div" (some "results-team-score") [.text "16"]]]]

/-- An unplayed map: both scores are the placeholder, no half-score. -/
def exMh3 : Node :=
  .elem "div" (some "mapholder")
    [.elem "div" (some "mapname") [.text "Nuke"],
     .elem "div" (some "results")
       [.elem "div" (some "results-left")
          [.elem "div" (some "results-teamname") [.text "NaVi"],
           .elem "div" (some "results-team-score") [.text "-"]],
        .elem "span" (some "results-right")
          [.elem "div" (some "results-teamname") [.text "G2"],
           .elem "div" (some "results-team-score") [.text "-"]]]]

/-- The content container of the running example document. -/
def exSec : Node :=
  .elem "div" (some "col-6 col-7-small") [exBox1, exBox2, exMh1, exMh2, exMh3]

/-- The running example document. -/
def exDoc : Node := .elem "html" none [exSec]

/-- Expected extraction of `exMh1`. -/
def exM1 : MapResult :=
  { map := "Inferno"
    team1 := { name := "NaVi", score := "16", status := "won" }
    team2 := { name := "G2", score := "9", status := "lost" }
    half_scores := "8-7;8-2", status := "played" }

/-- Expected extraction of `exMh2`. -/
def exM2 : MapResult :=
  { map := "Mirage"
    team1 := { name := "NaVi", score := "13", status := "lost" }
    team2 := { name := "G2", score := "16", status := "won" }
    half_scores := "", status := "not_played" }

/-- Expected extraction of `exMh3`. -/
def exM3 : MapResult :=
  { map := "Nuke"
    team1 := { name := "NaVi", score := "-", status := "not_played" }
    team2 := { name := "G2", score := "-", status := "not_played" }
    half_scores := "", status := "not_played" }

/-- Expected extraction of `exDoc`. -/
def exMd : MatchData :=
  { url := "u", format := "Best of 3", stage := "Group Stage"
    veto := ["1. NaVi removed Dust2", "2. G2 removed Train", "3. Overpass was left over"]
    maps := [exM1, exM2, exM3] }

/-- A second populated metadata box, behind `exBox1` in `c1doc`. -/
def c1box2 : Node :=
  .elem "div" (some "standard-box veto-box")
    [.elem "div" (some "padding preformatted-text") [.text "Best of 1\n* Grand Final"]]

/-- A content container holding two populated metadata boxes. -/
def c1sec : Node :=
  .elem "div" (some "col-6 col-7-small") [exBox1, c1box2]

/-- A document whose content container holds two populated metadata boxes. -/
def c1doc : Node := .elem "html" none [c1sec]

/-- A map holder whose results fragment lacks the left team fragment. -/
def c2doc : Node :=
  .elem "html" none
    [.elem "div" (some "col-6 col-7-small")
      [.elem "div" (some "mapholder")
        [.elem "div" (some "mapname") [.text "Nuke"],
         .elem "div" (some "results")
           [.elem "span" (some "results-right")
              [.elem "div" (some "results-teamname") [.text "G2"],
               .elem "div" (some "results-team-score") [.text "16"]]]]]]

/-- A qualifying veto block whose single step sits one level deeper inside
a wrapper `div`. -/
def c6pad : Node :=
  .elem "div" (some "padding")
    [.elem "div" none [.elem "div" none [.text "1. NaVi removed Dust2"]]]

/-- The veto box of `c6doc`. -/
def c6box : Node :=
  .elem "div" (some "standard-box veto-box") [c6pad]

/-- The section of `c6doc`. -/
def c6sec : Node :=
  .elem "div" (some "col-6 col-7-small") [c6box]

/-- A document whose qualifying veto block has a nested step `div`. -/
def c6doc : Node := .elem "html" none [c6sec]

/-- The wording of the spec for the primary veto rule: the trimmed texts of the
immediate child fragments of the qualifying block, empties discarded
(for comparison with what the code computes). -/
def specImmediateChildVetoSteps (vetoDiv : Node) : List String :=
  match vetoDiv with
  | .text _ => []
  | .elem _ _ cs => (cs.map (fun c => pyStrip c.textContent)).filter strNonEmpty

/-- A document with no content container at all. -/
def c7doc : Node := .elem "html" none [.text "Page not found"]

/-- A persisted record whose url has a fresh extraction. -/
def wStored1 : StoredMatch :=
  { url := "https://e/m/1", format := "old", stage := "old stage", veto := ["x"],
    maps := [], extra := [("date", "2024-01-01"), ("event", "Major")] }

/-- A second persisted record sharing the url of `wStored1`. -/
def wStored2 : StoredMatch :=
  { url := "https://e/m/1", format := "", stage := "", veto := [],
    maps := [], extra := [("date", "2024-01-02")] }

/-- A persisted record whose url has no fresh extraction. -/
def wStored3 : StoredMatch :=
  { url := "https://e/m/2", format := "keep", stage := "keep", veto := ["k"],
    maps := [], extra := [("date", "2024-02-01")] }

/-- The fresh extraction for `https://e/m/1`. -/
def wFresh : MatchData :=
  { url := "https://e/m/1", format := "Best of 3", stage := "Group Stage",
    veto := ["1. NaVi removed Dust2"], maps := [exM1] }

/-- A one-entry batch of fresh extractions. -/
def wScraped : List (String × MatchData) := [("https://e/m/1", wFresh)]

/-! ## Helper lemmas -/

theorem string_eq_empty_iff (s : String) : s = "" ↔ s.data = [] := by
  cases s with
  | mk d =>
    constructor
    · intro h
      rw [h]
    · intro h
      subst h
      rfl

theorem strNonEmpty_iff {s : String} : strNonEmpty s = true ↔ s ≠ "" := by
  cases s with
  | mk d =>
    cases d with
    | nil =>
      constructor
      · intro h; exact absurd h (by decide)
      · intro h; exact absurd ((string_eq_empty_iff _).mpr rfl) h
    | cons c cs =>
      constructor
      · intro _ he
        cases (string_eq_empty_iff _).mp he
      · intro _; rfl

theorem dropWhile_dropWhile (p : α → Bool) (l : List α) :
    (l.dropWhile p).dropWhile p = l.dropWhile p := by
  have h := List.head?_dropWhile_not p l
  cases hd : l.dropWhile p with
  | nil => simp
  | cons x xs =>
    rw [hd] at h
    simp only [List.head?_cons] at h
    rw [List.dropWhile_cons_of_neg (by simp [h])]

theorem getLast?_dropWhile (p : α → Bool) (l : List α) (h : l.dropWhile p ≠ []) :
    (l.dropWhile p).getLast? = l.getLast? := by
  induction l with
  | nil => simp at h
  | cons a t ih =>
    by_cases hp : p a
    · rw [List.dropWhile_cons_of_pos hp] at h ⊢
      have ht : t ≠ [] := by
        intro he; subst he; simp at h
      cases t with
      | nil => exact absurd rfl ht
      | cons b t2 => rw [List.getLast?_cons_cons]; exact ih h
    · rw [List.dropWhile_cons_of_neg hp]

theorem dropWhile_eq_self_of_head {p : α → Bool} {l : List α} {c : α}
    (h : l.head? = some c) (hc : p c = false) : l.dropWhile p = l := by
  cases l with
  | nil => rfl
  | cons a t =>
    simp only [List.head?_cons, Option.some.injEq] at h
    subst h
    exact List.dropWhile_cons_of_neg (by simp [hc])

theorem pyStripL_idem (l : List Char) : pyStripL (pyStripL l) = pyStripL l := by
  have hA := List.head?_dropWhile_not pyIsSpace l
  unfold pyStripL
  generalize hAd : l.dropWhile pyIsSpace = A at hA ⊢
  have hBhead := List.head?_dropWhile_not pyIsSpace A.reverse
  have hBlast : A.reverse.dropWhile pyIsSpace ≠ [] →
      (A.reverse.dropWhile pyIsSpace).getLast? = A.head? := fun h => by
    rw [getLast?_dropWhile _ _ h, List.getLast?_reverse]
  generalize hBd : A.reverse.dropWhile pyIsSpace = B at hBhead hBlast ⊢
  cases hBe : B with
  | nil => simp
  | cons b bs =>
    subst hBe
    have hlast : (b :: bs).getLast? = A.head? := hBlast (by intro hc; cases hc)
    cases hh : A.head? with
    | none =>
      rw [hh] at hlast
      cases List.getLast?_eq_none_iff.mp hlast
    | some c =>
      have hcws : pyIsSpace c = false := by rw [hh] at hA; exact hA
      have hhead : (b :: bs).reverse.head? = some c := by
        rw [List.head?_reverse, hlast, hh]
      rw [dropWhile_eq_self_of_head hhead hcws, List.reverse_reverse]
      simp only [List.head?_cons] at hBhead
      rw [List.dropWhile_cons_of_neg (by simp [hBhead])]

theorem pyStrip_idem (s : String) : pyStrip (pyStrip s) = pyStrip s := by
  show (⟨pyStripL (String.data ⟨pyStripL s.data⟩)⟩ : String) = ⟨pyStripL s.data⟩
  rw [show String.data ⟨pyStripL s.data⟩ = pyStripL s.data from rfl, pyStripL_idem]

theorem findSome?_append_first {α β : Type} (l1 l2 : List α) (f : α → Option β) (x : α) (v : β)
    (h1 : ∀ b ∈ l1, f b = none) (hx : f x = some v) :
    (l1 ++ x :: l2).findSome? f = some v := by
  induction l1 with
  | nil =>
    simp only [List.nil_append]
    rw [List.findSome?_cons_of_isSome _ (by simp [hx])]
    exact hx
  | cons a t ih =>
    have ha : f a = none := h1 a (by simp)
    simp only [List.cons_append]
    rw [List.findSome?_cons_of_isNone _ (by simp [ha])]
    exact ih (fun b hb => h1 b (by simp [hb]))

theorem parse_ok_cases {soup : Node} {url : String} {md : MatchData}
    (h : parse_match_details soup url = .ok md) :
    (soup.findQ "div" (some "col-6 col-7-small") = none ∧ md = emptyMatch url) ∨
    ∃ sec maps, soup.findQ "div" (some "col-6 col-7-small") = some sec ∧
      parseMaps (sec.findAllQ "div" (some "mapholder")) = .ok maps ∧
      md = { url := url, format := (formatStageOfBoxes (formatBoxesOf sec)).1,
             stage := (formatStageOfBoxes (formatBoxesOf sec)).2,
             veto := vetoOfSection sec, maps := maps } := by
  unfold parse_match_details at h
  cases hs : soup.findQ "div" (some "col-6 col-7-small") with
  | none =>
    rw [hs] at h
    left
    refine ⟨rfl, ?_⟩
    injection h with h
    exact h.symm
  | some sec =>
    rw [hs] at h
    dsimp only at h
    right
    cases hm : parseMaps (sec.findAllQ "div" (some "mapholder")) with
    | error e => rw [hm] at h; cases h
    | ok maps =>
      rw [hm] at h
      injection h with h
      exact ⟨sec, maps, rfl, hm, h.symm⟩

theorem mem_parseMaps {hs : List Node} {ms : List MapResult} {m : MapResult}
    (h : parseMaps hs = .ok ms) (hm : m ∈ ms) :
    ∃ mh ∈ hs, parseMapHolder mh = .ok (some m) := by
  induction hs generalizing ms with
  | nil =>
    unfold parseMaps at h
    injection h with h
    subst h
    cases hm
  | cons mh rest ih =>
    unfold parseMaps at h
    cases hp : parseMapHolder mh with
    | error e => rw [hp] at h; cases h
    | ok o =>
      rw [hp] at h
      cases o with
      | none =>
        obtain ⟨mh2, hmem, hok⟩ := ih h hm
        exact ⟨mh2, by simp [hmem], hok⟩
      | some m2 =>
        cases hr : parseMaps rest with
        | error e => rw [hr] at h; cases h
        | ok ms2 =>
          rw [hr] at h
          injection h with h
          subst h
          cases hm with
          | head => exact ⟨mh, by simp, hp⟩
          | tail _ hm2 =>
            obtain ⟨mh2, hmem, hok⟩ := ih hr hm2
            exact ⟨mh2, by simp [hmem], hok⟩

theorem teamFields_status {t : Option Node} {n s st : String}
    (h : teamFields t = .ok (n, s, st)) : st = "won" ∨ st = "lost" := by
  unfold teamFields at h
  cases t with
  | none => cases h
  | some nd =>
    dsimp only at h
    cases h1 : optTextStrip (nd.findQ "div" (some "results-teamname")) with
    | error e => rw [h1] at h; cases h
    | ok name =>
      rw [h1] at h
      cases h2 : optTextStrip (nd.findQ "div" (some "results-team-score")) with
      | error e => rw [h2] at h; cases h
      | ok score =>
        rw [h2] at h
        injection h with h
        have h3 := congrArg (fun x : String × String × String => x.2.2) h
        simp only at h3
        subst h3
        by_cases hc : (nd.classList).any (fun c => decide (c = "won")) = true
        · left; simp [hc]
        · right; simp [hc]

theorem parseMapHolder_props {mh : Node} {m : MapResult}
    (h : parseMapHolder mh = .ok (some m)) :
    (m.status = "played" ↔ m.half_scores ≠ "") ∧
    ((m.team1.status = "not_played" ∧ m.team2.status = "not_played") ↔
      (m.team1.score = "-" ∧ m.team2.score = "-" ∧ m.half_scores = "")) ∧
    (m.team1.status = "not_played" ↔ m.team2.status = "not_played") ∧
    (¬(m.team1.score = "-" ∧ m.team2.score = "-") →
      (m.team1.status = "won" ∨ m.team1.status = "lost") ∧
      (m.team2.status = "won" ∨ m.team2.status = "lost")) := by
  unfold parseMapHolder at h
  cases hr : mh.findQ "div" (some "results") with
  | none => rw [hr] at h; cases h
  | some results =>
    rw [hr] at h
    dsimp only at h
    cases h1 : teamFields (results.findQ "div" (some "results-left")) with
    | error e => rw [h1] at h; cases h
    | ok tf1 =>
      rw [h1] at h
      obtain ⟨t1n, t1s, t1st⟩ := tf1
      have hst1 := teamFields_status h1
      cases h2 : teamFields (results.findQ "span" (some "results-right")) with
      | error e => rw [h2] at h; cases h
      | ok tf2 =>
        rw [h2] at h
        obtain ⟨t2n, t2s, t2st⟩ := tf2
        have hst2 := teamFields_status h2
        dsimp only at h
        injection h with h
        injection h with h
        subst h
        generalize hhalf :
          (match results.findQ "div" (some "results-center-half-score") with
            | some hs => pyStrip hs.textContent
            | none => "") = half at *
        simp only
        by_cases hnp : (t1s = "-" ∧ t2s = "-" ∧ half = "")
        · obtain ⟨hs1, hs2, hh⟩ := hnp
          subst hh
          constructor
          · simp [if_pos, strNonEmpty]
          constructor
          · simp [hs1, hs2, strNonEmpty]
          constructor
          · simp [hs1, hs2, strNonEmpty]
          · intro hcon
            exact absurd ⟨hs1, hs2⟩ hcon
        · have hifs :
            (if t1s = "-" ∧ t2s = "-" ∧ half = "" then "not_played" else t1st) = t1st ∧
            (if t1s = "-" ∧ t2s = "-" ∧ half = "" then "not_played" else t2st) = t2st := by
            rw [if_neg hnp, if_neg hnp]
            exact ⟨rfl, rfl⟩
          simp only [hifs.1, hifs.2]
          have ht1ne : t1st ≠ "not_played" := by
            rcases hst1 with h | h <;> rw [h] <;> decide
          have ht2ne : t2st ≠ "not_played" := by
            rcases hst2 with h | h <;> rw [h] <;> decide
          refine ⟨?_, ?_, ?_, ?_⟩
          · by_cases hne : strNonEmpty half = true
            · rw [if_pos hne]
              constructor
              · intro _; exact strNonEmpty_iff.mp hne
              · intro _; rfl
            · rw [if_neg hne]
              have : half = "" := by
                by_contra hc
                exact hne (strNonEmpty_iff.mpr hc)
              subst this
              constructor
              · intro hc; exact absurd hc (by decide)
              · intro hc; exact absurd rfl hc
          · constructor
            · intro ⟨hc1, hc2⟩; exact absurd hc1 ht1ne
            · intro hc; exact absurd hc hnp
          · constructor
            · intro hc; exact absurd hc ht1ne
            · intro hc; exact absurd hc ht2ne
          · intro _; exact ⟨hst1, hst2⟩

theorem mem_vetoOfSection {sec : Node} {v : String} (hv : v ∈ vetoOfSection sec) :
    ∃ s, v = pyStrip s ∧ v ≠ "" := by
  unfold vetoOfSection at hv
  cases hf : (formatBoxesOf sec).findSome? boxVeto with
  | some w =>
    rw [hf] at hv
    dsimp only at hv
    obtain ⟨box, _, hbv⟩ := List.exists_of_findSome?_eq_some hf
    unfold boxVeto at hbv
    cases hp : box.findQ "div" (some "padding") with
    | none => rw [hp] at hbv; cases hbv
    | some vd =>
      rw [hp] at hbv
      dsimp only at hbv
      by_cases hk : hasVetoKeyword (pyLower vd.textContent) = true
      · rw [if_pos hk] at hbv
        injection hbv with hbv
        subst hbv
        rw [List.mem_filter] at hv
        obtain ⟨hvm, hvne⟩ := hv
        rw [List.mem_map] at hvm
        obtain ⟨x, _, hx⟩ := hvm
        exact ⟨x.textContent, hx.symm, strNonEmpty_iff.mp hvne⟩
      · rw [if_neg hk] at hbv; cases hbv
  | none =>
    rw [hf] at hv
    unfold fallbackVeto at hv
    dsimp only at hv
    rw [List.mem_filter] at hv
    obtain ⟨hvm, hvne⟩ := hv
    rw [List.mem_map] at hvm
    obtain ⟨x, _, hx⟩ := hvm
    exact ⟨x.textContent, hx.symm, strNonEmpty_iff.mp hvne⟩

theorem getLast?_cons_elim {α β : Type} (a : α) (l : List α) (d : β) (f : α → β) :
    (a :: l).getLast?.elim d f = l.getLast?.elim (f a) f := by
  cases l with
  | nil => rfl
  | cons b t =>
    rw [List.getLast?_cons_cons]
    cases h : (b :: t).getLast? with
    | none => cases List.getLast?_eq_none_iff.mp h
    | some x => rfl

theorem formatStage_foldl_char (boxes : List Node) (fs0 : String × String) :
    boxes.foldl formatStageStep fs0 =
      ((boxes.filterMap boxLines).getLast?.elim fs0.1 (fun l => l.headD ""),
       ((boxes.filterMap boxLines).filter (fun l => decide (l.length > 1))).getLast?.elim
         fs0.2 stageFromLines) := by
  induction boxes generalizing fs0 with
  | nil => simp
  | cons b bs ih =>
    rw [List.foldl_cons, ih]
    cases hb : boxLines b with
    | none =>
      rw [List.filterMap_cons_none hb]
      simp only [formatStageStep, hb]
    | some lines =>
      rw [List.filterMap_cons_some hb]
      simp only [formatStageStep, hb]
      rw [getLast?_cons_elim]
      rw [List.filter_cons]
      by_cases hlen : lines.length > 1
      · have hd : decide (lines.length > 1) = true := by simpa using hlen
        rw [if_pos hlen, hd, if_pos rfl, getLast?_cons_elim]
      · have hd : decide (lines.length > 1) = false := by simpa using hlen
        rw [if_neg hlen, hd, if_neg (by decide)]

theorem applyScraped_lookup_none {scraped : List (String × MatchData)} {r : StoredMatch}
    (h : scraped.lookup r.url = none) : applyScraped scraped r = r := by
  unfold applyScraped
  rw [h]

theorem applyScraped_lookup_some {scraped : List (String × MatchData)} {r : StoredMatch}
    {d : MatchData} (h : scraped.lookup r.url = some d) :
    applyScraped scraped r =
      { url := r.url, format := d.format, stage := d.stage,
        veto := d.veto, maps := d.maps, extra := r.extra } := by
  unfold applyScraped
  rw [h]

theorem applyScraped_idem (scraped : List (String × MatchData)) (r : StoredMatch) :
    applyScraped scraped (applyScraped scraped r) = applyScraped scraped r := by
  cases h : scraped.lookup r.url with
  | none =>
    rw [applyScraped_lookup_none h, applyScraped_lookup_none h]
  | some d =>
    rw [applyScraped_lookup_some h]
    have h2 : scraped.lookup
        ({ url := r.url, format := d.format, stage := d.stage,
           veto := d.veto, maps := d.maps, extra := r.extra } : StoredMatch).url = some d := h
    rw [applyScraped_lookup_some h2]

/-! ## Claim theorems -/

/-- C1 counterexample: in `c1doc` the first metadata box is populated
(`boxLines exBox1` is the two lines "Best of 3" / "* Group Stage"), yet
the extractor returns format "Best of 1" and stage "Grand Final" taken
from the second box — the loop at lines 64-72 has no first-wins guard, so
a later populated block does overwrite already-set fields, contradicting
the claim. -/
theorem C1_counterexample :
    formatBoxesOf c1sec = [exBox1, c1box2] ∧
    boxLines exBox1 = some ["Best of 3", "* Group Stage"] ∧
    parse_match_details c1doc "u" =
      .ok { url := "u", format := "Best of 1", stage := "Grand Final",
            veto := [], maps := [] } ∧
    ("Best of 1", "Grand Final") ≠ ("Best of 3", "Group Stage") :=
  ⟨rfl, by decide, by decide, by decide⟩

/-- C1 (amended): the format/stage loop is last-wins, not first-wins: over
any sequence of metadata boxes, `format` is the first line of the LAST
populated box (empty when none is populated) and `stage` comes from the
LAST populated box having a second line (empty when there is none). -/
theorem C1_last_populated_box_wins (boxes : List Node) :
    formatStageOfBoxes boxes =
      ((boxes.filterMap boxLines).getLast?.elim "" (fun l => l.headD ""),
       ((boxes.filterMap boxLines).filter (fun l => decide (l.length > 1))).getLast?.elim
         "" stageFromLines) :=
  formatStage_foldl_char boxes ("", "")

/-- C2: the claim (and the spec) say extraction never raises on missing
structure, in particular when a results fragment lacks a team side.  The
code contradicts this: in `c2doc` the results fragment of the map holder has no
`div.results-left`, and the unguarded `team1.get("class", [])` at line 114
raises `AttributeError` (the embedding returns the corresponding
`.error`), aborting the whole extraction. -/
theorem C2_raises_on_missing_left_team :
    parse_match_details c2doc "u" =
      .error "AttributeError: NoneType object has no attribute get" := by
  decide

/-- C7: when the document has no `div.col-6.col-7-small` content container,
`parse_match_details` returns the empty record (lines 53-56) without
raising. -/
theorem C7_no_container_empty_record (soup : Node) (url : String)
    (h : soup.findQ "div" (some "col-6 col-7-small") = none) :
    parse_match_details soup url =
      .ok { url := url, format := "", stage := "", veto := [], maps := [] } := by
  unfold parse_match_details
  rw [h]
  rfl

/-- C7 witness: `c7doc` has no content container and yields the empty
record. -/
theorem C7_witness :
    parse_match_details c7doc "u" =
      .ok { url := "u", format := "", stage := "", veto := [], maps := [] } :=
  C7_no_container_empty_record c7doc "u" rfl

/-- C3: every emitted MapResult has `status = "played"` iff its (trimmed)
half-score text is non-empty (line 149), independently of the per-team
statuses: when the scores are not both the placeholder the teams keep
their won/lost marker statuses even if the half-score text is empty. -/
theorem C3_status_played_iff_half_scores (soup : Node) (url : String)
    (md : MatchData) (m : MapResult)
    (hp : parse_match_details soup url = .ok md) (hm : m ∈ md.maps) :
    (m.status = "played" ↔ m.half_scores ≠ "") ∧
    (¬(m.team1.score = "-" ∧ m.team2.score = "-") →
      (m.team1.status = "won" ∨ m.team1.status = "lost") ∧
      (m.team2.status = "won" ∨ m.team2.status = "lost")) := by
  rcases parse_ok_cases hp with ⟨_, hmd⟩ | ⟨sec, maps, _, hpm, hmd⟩
  · subst hmd; cases hm
  · subst hmd
    obtain ⟨mh, _, hok⟩ := mem_parseMaps hpm hm
    obtain ⟨hc1, _, _, hc4⟩ := parseMapHolder_props hok
    exact ⟨hc1, hc4⟩

/-- C3 witness: in `exDoc`, the Mirage map has empty half-score text but
final scores 13/16, so its MapResult status is derived from the half-score
alone while the teams keep lost/won. -/
theorem C3_witness :
    (exM2.status = "played" ↔ exM2.half_scores ≠ "") ∧
    (¬(exM2.team1.score = "-" ∧ exM2.team2.score = "-") →
      (exM2.team1.status = "won" ∨ exM2.team1.status = "lost") ∧
      (exM2.team2.status = "won" ∨ exM2.team2.status = "lost")) :=
  C3_status_played_iff_half_scores exDoc "u" exMd exM2 (by decide) (by decide)

/-- C4: both teams of an emitted MapResult are `not_played` exactly when
both raw scores equal "-" and the trimmed half-score text is empty
(lines 127-129), and `not_played` is never assigned to only one team. -/
theorem C4_not_played_joint_iff_placeholder (soup : Node) (url : String)
    (md : MatchData) (m : MapResult)
    (hp : parse_match_details soup url = .ok md) (hm : m ∈ md.maps) :
    ((m.team1.status = "not_played" ∧ m.team2.status = "not_played") ↔
      (m.team1.score = "-" ∧ m.team2.score = "-" ∧ m.half_scores = "")) ∧
    (m.team1.status = "not_played" ↔ m.team2.status = "not_played") := by
  rcases parse_ok_cases hp with ⟨_, hmd⟩ | ⟨sec, maps, _, hpm, hmd⟩
  · subst hmd; cases hm
  · subst hmd
    obtain ⟨mh, _, hok⟩ := mem_parseMaps hpm hm
    obtain ⟨_, hc2, hc3, _⟩ := parseMapHolder_props hok
    exact ⟨hc2, hc3⟩

/-- C4 witness: in `exDoc`, the Nuke map has both scores "-" and empty
half-score, and both teams are `not_played`. -/
theorem C4_witness :
    ((exM3.team1.status = "not_played" ∧ exM3.team2.status = "not_played") ↔
      (exM3.team1.score = "-" ∧ exM3.team2.score = "-" ∧ exM3.half_scores = "")) ∧
    (exM3.team1.status = "not_played" ↔ exM3.team2.status = "not_played") :=
  C4_not_played_joint_iff_placeholder exDoc "u" exMd exM3 (by decide) (by decide)

/-- C5: the fallback pattern scan (lines 89-96) is used only when no
metadata box qualifies under the primary rule (its first `div.padding`
fragment has lowered text holding a veto keyword); when a first qualifying
box exists, the veto comes from that box alone and the fallback output is
never used. -/
theorem C5_fallback_only_without_qualifying_box (sec : Node) :
    ((∀ b ∈ formatBoxesOf sec, boxVeto b = none) →
      vetoOfSection sec = fallbackVeto sec) ∧
    (∀ l1 box l2 v, formatBoxesOf sec = l1 ++ box :: l2 →
      (∀ b ∈ l1, boxVeto b = none) → boxVeto box = some v →
      vetoOfSection sec = v) := by
  constructor
  · intro hall
    unfold vetoOfSection
    rw [List.findSome?_eq_none_iff.mpr hall]
  · intro l1 box l2 v hdec hpre hq
    unfold vetoOfSection
    rw [hdec, findSome?_append_first l1 l2 boxVeto box v hpre hq]

/-- C5 witness: in `exDoc` the second box qualifies (the first does not),
and the extracted veto is exactly the steps of that box even though the
fallback scan over the section would also run. -/
theorem C5_witness :
    vetoOfSection exSec =
      ["1. NaVi removed Dust2", "2. G2 removed Train", "3. Overpass was left over"] :=
  (C5_fallback_only_without_qualifying_box exSec).2 [exBox1] exBox2 []
    ["1. NaVi removed Dust2", "2. G2 removed Train", "3. Overpass was left over"]
    rfl (by decide) (by decide)

/-- C6 counterexample: in `c6doc` the qualifying block `c6pad` has ONE
immediate child fragment (so the claimed sequence is the single step), but
`find_all("div")` at line 81 collects all descendant `div`s, so the nested
step is emitted twice. -/
theorem C6_counterexample :
    parse_match_details c6doc "u" =
      .ok { url := "u", format := "", stage := "",
            veto := ["1. NaVi removed Dust2", "1. NaVi removed Dust2"],
            maps := [] } ∧
    specImmediateChildVetoSteps c6pad = ["1. NaVi removed Dust2"] := by
  exact ⟨by decide, by decide⟩

/-- C6 (amended): when the first qualifying box of the primary rule exists, the
veto sequence consists of the trimmed texts of ALL descendant `div`
fragments of the first `div.padding` fragment of that box (not only immediate
children), in document order with empties discarded, and never of a later
qualifying block. -/
theorem C6_primary_veto_descendant_divs (sec : Node) (l1 : List Node) (box : Node)
    (l2 : List Node) (pad : Node)
    (hdec : formatBoxesOf sec = l1 ++ box :: l2)
    (hpre : ∀ b ∈ l1, boxVeto b = none)
    (hpad : box.findQ "div" (some "padding") = some pad)
    (hkw : hasVetoKeyword (pyLower pad.textContent) = true) :
    vetoOfSection sec =
      ((pad.findAllQ "div" none).map (fun s => pyStrip s.textContent)).filter
        strNonEmpty := by
  have hq : boxVeto box =
      some (((pad.findAllQ "div" none).map (fun s => pyStrip s.textContent)).filter
        strNonEmpty) := by
    unfold boxVeto
    rw [hpad]
    dsimp only
    rw [if_pos hkw]
  unfold vetoOfSection
  rw [hdec, findSome?_append_first l1 l2 boxVeto box _ hpre hq]

/-- C6 witness: the nested-step document, where the descendant scan yields
the duplicated step list. -/
theorem C6_witness :
    vetoOfSection c6sec =
      ((c6pad.findAllQ "div" none).map (fun s => pyStrip s.textContent)).filter
        strNonEmpty :=
  C6_primary_veto_descendant_divs c6sec [] c6box [] c6pad rfl
    (by intro b hb; cases hb) rfl (by decide)

/-- C8: the merge loop (lines 193-201) replaces exactly the
`format`/`stage`/`veto`/`maps` fields of records whose url has a fresh
extraction, preserves `url` and every other field, leaves records without
a fresh extraction untouched, adds and removes nothing, and applies the
same replacement to every record sharing a url. -/
theorem C8_merge_frame (scraped : List (String × MatchData)) (rs : List StoredMatch) :
    (update_results_merge scraped rs).length = rs.length ∧
    (∀ (i : Nat) (r : StoredMatch), rs[i]? = some r →
      ∃ r2 : StoredMatch, (update_results_merge scraped rs)[i]? = some r2 ∧
        r2.url = r.url ∧ r2.extra = r.extra ∧
        (scraped.lookup r.url = none → r2 = r) ∧
        (∀ d, scraped.lookup r.url = some d →
          r2 = { url := r.url, format := d.format, stage := d.stage,
                 veto := d.veto, maps := d.maps, extra := r.extra })) ∧
    (∀ (i j : Nat) (ri rj ri2 rj2 : StoredMatch) (d : MatchData),
      rs[i]? = some ri → rs[j]? = some rj →
      ri.url = rj.url →
      (update_results_merge scraped rs)[i]? = some ri2 →
      (update_results_merge scraped rs)[j]? = some rj2 →
      scraped.lookup ri.url = some d →
      ri2.format = rj2.format ∧ ri2.stage = rj2.stage ∧
        ri2.veto = rj2.veto ∧ ri2.maps = rj2.maps) := by
  refine ⟨?_, ?_, ?_⟩
  · unfold update_results_merge
    exact List.length_map rs (applyScraped scraped)
  · intro i r hr
    refine ⟨applyScraped scraped r, ?_, ?_, ?_, ?_, ?_⟩
    · unfold update_results_merge
      rw [List.getElem?_map, hr]
      rfl
    · cases h : scraped.lookup r.url with
      | none => rw [applyScraped_lookup_none h]
      | some d => rw [applyScraped_lookup_some h]
    · cases h : scraped.lookup r.url with
      | none => rw [applyScraped_lookup_none h]
      | some d => rw [applyScraped_lookup_some h]
    · intro h
      exact applyScraped_lookup_none h
    · intro d h
      exact applyScraped_lookup_some h
  · intro i j ri rj ri2 rj2 d hri hrj hurl hri2 hrj2 hd
    have h1 : ri2 = applyScraped scraped ri := by
      unfold update_results_merge at hri2
      rw [List.getElem?_map, hri] at hri2
      injection hri2 with h
      exact h.symm
    have h2 : rj2 = applyScraped scraped rj := by
      unfold update_results_merge at hrj2
      rw [List.getElem?_map, hrj] at hrj2
      injection hrj2 with h
      exact h.symm
    have hdj : scraped.lookup rj.url = some d := by rw [← hurl]; exact hd
    rw [h1, h2, applyScraped_lookup_some hd, applyScraped_lookup_some hdj]
    exact ⟨rfl, rfl, rfl, rfl⟩

/-- C8 witness: merging `wScraped` into a three-record collection replaces
the four fields of the first record (shared url) and keeps its extra
fields. -/
theorem C8_witness :
    (update_results_merge wScraped [wStored1, wStored2, wStored3])[0]? =
      some { url := wStored1.url, format := wFresh.format, stage := wFresh.stage,
             veto := wFresh.veto, maps := wFresh.maps, extra := wStored1.extra } := by
  obtain ⟨r2, hget, _, _, _, hsome⟩ :=
    (C8_merge_frame wScraped [wStored1, wStored2, wStored3]).2.1 0 wStored1 (by decide)
  rw [hget, hsome wFresh (by decide)]

/-- C9: the merge loop is idempotent — applying the same fresh batch twice
yields the same collection as applying it once. -/
theorem C9_merge_idempotent (scraped : List (String × MatchData))
    (rs : List StoredMatch) :
    update_results_merge scraped (update_results_merge scraped rs) =
      update_results_merge scraped rs := by
  unfold update_results_merge
  rw [List.map_map]
  exact List.map_congr_left (fun r _ => applyScraped_idem scraped r)

/-- C10: every veto entry of an extracted record — primary rule or
fallback — is a non-empty string after trimming (both comprehensions strip
each step and discard falsy entries, lines 82 and 93). -/
theorem C10_veto_entries_trimmed_nonempty (soup : Node) (url : String)
    (md : MatchData) (hp : parse_match_details soup url = .ok md) :
    ∀ v ∈ md.veto, pyStrip v ≠ "" := by
  intro v hv
  rcases parse_ok_cases hp with ⟨_, hmd⟩ | ⟨sec, maps, _, _, hmd⟩
  · subst hmd; cases hv
  · subst hmd
    obtain ⟨s, hvs, hvne⟩ := mem_vetoOfSection hv
    rw [hvs, pyStrip_idem]
    exact hvs ▸ hvne

/-- C10 witness: a concrete veto entry of `exDoc` is non-empty after
trimming. -/
theorem C10_witness : pyStrip "1. NaVi removed Dust2" ≠ "" :=
  C10_veto_entries_trimmed_nonempty exDoc "u" exMd (by decide)
    "1. NaVi removed Dust2" (by decide)
